import Mathlib

/-!
Verification of the request-execution engine of the Kisanlink ERP service
API client (src/utils/apiClient.ts, src/utils/errors.ts,
src/api-client/erp-service/config.ts), via a shallow embedding in Lean 4.

Conventions of the embedding:
* JS strings are Lean `String`s; JS objects used as string-to-string maps
  are association lists `List (String × String)` in insertion order.
* JSON values are the inductive `Json` below; `JSON.parse` is the
  executable `parseJson`.
* `throw`ing is modelled with `Except`; the value thrown by `request` is a
  `Thrown` (either one of the client's own error classes, modelled by
  `ERPError`, or a platform error carrying its `name` and whether it is an
  `instanceof Error`).
* HTTP statuses are `Int` (JS numbers restricted to the integers actually
  compared against).
-/

/-! ## JSON values and JS truthiness -/

/-- JSON values as produced by `JSON.parse`.  Numbers keep their source
lexeme, which is all the client ever inspects (via truthiness). -/
inductive Json where
  | null : Json
  | bool (b : Bool) : Json
  | num (lexeme : String) : Json
  | str (s : String) : Json
  | arr (elems : List Json) : Json
  | obj (fields : List (String × Json)) : Json

/-- Whether a JSON number lexeme denotes zero: every digit of the mantissa
(the part before any exponent marker) is `0`. -/
def numLexIsZero (lex : String) : Bool :=
  ((lex.data.takeWhile (fun c => c != 'e' && c != 'E')).filter Char.isDigit).all (· == '0')

/-- JavaScript truthiness of a JSON value ( `undefined` is represented by
`Option.none` at use sites). -/
def truthyJ : Json → Bool
  | .null => false
  | .bool b => b
  | .num lex => ! numLexIsZero lex
  | .str s => s != ""
  | .arr _ => true
  | .obj _ => true

/-- JavaScript property lookup on a parsed JSON object: with duplicate keys,
`JSON.parse` keeps the last occurrence. -/
def getField (fields : List (String × Json)) (k : String) : Option Json :=
  (fields.reverse.find? (fun p => p.1 == k)).map (·.2)

/-! ## Error taxonomy (src/utils/errors.ts) -/

/-- The closed set of error kinds of the client (one per error class;
`generic` is the base class `ERPServiceError`). -/
inductive ErrKind where
  | validation | authentication | authorization | notFound
  | conflict | server | network | generic
deriving DecidableEq

/-- The `name` property of each error class. -/
def errName : ErrKind → String
  | .validation => "ValidationError"
  | .authentication => "AuthenticationError"
  | .authorization => "AuthorizationError"
  | .notFound => "NotFoundError"
  | .conflict => "ConflictError"
  | .server => "ServerError"
  | .network => "NetworkError"
  | .generic => "ERPServiceError"

/-- An error value of the client's own hierarchy: kind (= class), message
(a JS value: the message can come from a JSON field), optional status and
optional raw response `(status, body)`. -/
structure ERPError where
  kind : ErrKind
  message : Json
  status : Option Int
  response : Option (Int × String)

/-- `new NetworkError(message)`: no status, no response. -/
def mkNetworkError (message : String) : ERPError :=
  { kind := .network, message := .str message, status := none, response := none }

/-- `createErrorFromStatus` of src/utils/errors.ts: the `switch` on the
status, with `response` present only when the raw body is truthy
(a nonempty string). -/
def createErrorFromStatus (status : Int) (message : Json) (responseBody : String) :
    ERPError :=
  let response : Option (Int × String) :=
    if responseBody ≠ "" then some (status, responseBody) else none
  if status = 400 then
    { kind := .validation, message := message, status := some 400, response := response }
  else if status = 401 then
    { kind := .authentication, message := message, status := some 401, response := response }
  else if status = 403 then
    { kind := .authorization, message := message, status := some 403, response := response }
  else if status = 404 then
    { kind := .notFound, message := message, status := some 404, response := response }
  else if status = 409 then
    { kind := .conflict, message := message, status := some 409, response := response }
  else if status ≥ 500 then
    { kind := .server, message := message, status := some status, response := response }
  else
    { kind := .generic, message := message, status := some status, response := response }

/-! ## Configuration normalization (src/api-client/erp-service/config.ts) -/

/-- User-supplied configuration (`ERPServiceConfig`): optional fields are
`Option`s; the token-retrieval capability is an optional function. -/
structure ERPServiceConfig where
  baseURL : String
  defaultHeaders : Option (List (String × String))
  getAccessToken : Option (Unit → Option String)
  timeout : Option Nat

/-- Normalized internal configuration (`ApiConfig`). -/
structure ApiConfig where
  baseURL : String
  defaultHeaders : List (String × String)
  getAccessToken : Option (Unit → Option String)
  timeout : Nat

/-- `baseURL.replace(/\/$/, '')`: the regex is unanchored-count one match,
so exactly one trailing slash is removed when present. -/
def stripOneTrailingSlash (s : String) : String :=
  if s.data.getLast? = some '/' then ⟨s.data.dropLast⟩ else s

/-- `validateConfig` of config.ts: throws a plain `Error` when `baseURL`
is falsy (empty), otherwise fills defaults (`timeout || 30000` treats a
zero timeout as absent). -/
def validateConfig (config : ERPServiceConfig) : Except String ApiConfig :=
  if config.baseURL = "" then
    .error "ERPServiceConfig.baseURL is required"
  else
    .ok { baseURL := stripOneTrailingSlash config.baseURL,
          defaultHeaders := config.defaultHeaders.getD [],
          getAccessToken := config.getAccessToken,
          timeout := match config.timeout with
            | some t => if t ≠ 0 then t else 30000
            | none => 30000 }

/-! ## Header building (src/utils/apiClient.ts, buildHeaders) -/

/-- JS object property assignment `o[k] = v` on an insertion-ordered
string map: updates the existing entry in place, else appends. -/
def setKV (l : List (String × String)) (k v : String) : List (String × String) :=
  if (l.find? (·.1 == k)).isSome then
    l.map (fun p => if p.1 == k then (k, v) else p)
  else
    l ++ [(k, v)]

/-- JS property read `o[k]` on a string map. -/
def getKV (l : List (String × String)) (k : String) : Option String :=
  (l.find? (·.1 == k)).map (·.2)

/-- Object spread: assign every entry of `b` onto `a` in order. -/
def spread (a b : List (String × String)) : List (String × String) :=
  b.foldl (fun acc p => setKV acc p.1 p.2) a

/-- `buildHeaders` of src/utils/apiClient.ts: spread the default headers
and the per-call extras into a fresh object; add a JSON `Content-Type`
only when the body is not `FormData` and none is set; add
`Authorization: Bearer token` when the token callback yields a truthy
(nonempty) token. -/
def buildHeaders (defaultHeaders : List (String × String))
    (extraHeaders : List (String × String)) (token : Option String)
    (isFormData : Bool) : List (String × String) :=
  let headers := spread (spread [] defaultHeaders) extraHeaders
  let headers :=
    if !isFormData && (getKV headers "Content-Type").isNone then
      setKV headers "Content-Type" "application/json"
    else headers
  match token with
  | some t => if t ≠ "" then setKV headers "Authorization" ("Bearer " ++ t) else headers
  | none => headers

/-! ## Body serialization (src/utils/apiClient.ts, request, `fetch` call) -/

/-- A JS value passed as the `body` argument of `request`
(`.undef` is an omitted argument). -/
inductive JsBody where
  | undef | null
  | bool (b : Bool)
  | num (n : Int)
  | str (s : String)
  | obj
  | formData
deriving DecidableEq

/-- JS truthiness of a body value (objects and `FormData` are always
truthy). -/
def truthyB : JsBody → Bool
  | .undef => false
  | .null => false
  | .bool b => b
  | .num n => n ≠ 0
  | .str s => s != ""
  | .obj => true
  | .formData => true

/-- `body instanceof FormData`. -/
def isFormDataB : JsBody → Bool
  | .formData => true
  | _ => false

/-- What `fetch` receives as its body. -/
inductive Payload where
  | form
  | json (s : String)
deriving DecidableEq

/-- A stand-in for `JSON.stringify` on the body values of the embedding
(its exact output is irrelevant to the claims; only whether it is called). -/
def jsStringify : JsBody → String
  | .undef => "undefined"
  | .null => "null"
  | .bool b => if b then "true" else "false"
  | .num n => toString n
  | .str s => "\"" ++ s ++ "\""
  | .obj => "\x7b\x7d"
  | .formData => "\x7b\x7d"

/-- The `body:` field of the `fetch` call in `request`:
`body ? (isFormData ? body : JSON.stringify(body)) : undefined`. -/
def sentPayload (body : JsBody) : Option Payload :=
  if truthyB body then
    some (if isFormDataB body then .form else .json (jsStringify body))
  else
    none

/-! ## JSON parsing (model of `JSON.parse` / `response.json()`) -/

/-- JSON insignificant whitespace. -/
def skipWs (l : List Char) : List Char :=
  l.dropWhile (fun c => c == ' ' || c == '\t' || c == '\n' || c == '\r')

/-- Value of a hexadecimal digit. -/
def hexVal? (c : Char) : Option Nat :=
  if c.isDigit then some (c.toNat - 48)
  else if 'a' ≤ c ∧ c ≤ 'f' then some (c.toNat - 87)
  else if 'A' ≤ c ∧ c ≤ 'F' then some (c.toNat - 55)
  else none

/-- Characters of a JSON string literal after the opening quote, with the
JSON escape sequences; returns the decoded characters and the input after
the closing quote. -/
def parseStrChars : Nat → List Char → Option (List Char × List Char)
  | 0, _ => none
  | _ + 1, [] => none
  | fuel + 1, c :: rest =>
    if c == '"' then some ([], rest)
    else if c == '\\' then
      match rest with
      | [] => none
      | e :: rest2 =>
        let esc? : Option (Char × List Char) :=
          if e == '"' then some ('"', rest2)
          else if e == '\\' then some ('\\', rest2)
          else if e == '/' then some ('/', rest2)
          else if e == 'n' then some ('\n', rest2)
          else if e == 't' then some ('\t', rest2)
          else if e == 'r' then some ('\r', rest2)
          else if e == 'b' then some ('\x08', rest2)
          else if e == 'f' then some ('\x0c', rest2)
          else if e == 'u' then
            match rest2 with
            | a :: b :: c2 :: d :: rest3 =>
              match hexVal? a, hexVal? b, hexVal? c2, hexVal? d with
              | some ha, some hb, some hc, some hd =>
                some (Char.ofNat (((ha * 16 + hb) * 16 + hc) * 16 + hd), rest3)
              | _, _, _, _ => none
            | _ => none
          else none
        match esc? with
        | some (ch, r) => (parseStrChars fuel r).map (fun p => (ch :: p.1, p.2))
        | none => none
    else if c.toNat < 32 then none
    else (parseStrChars fuel rest).map (fun p => (c :: p.1, p.2))

/-- Lexeme of a JSON number (`-? int frac? exp?`), returned together with
the remaining input. -/
def parseNumberLex (l : List Char) : Option (List Char × List Char) :=
  let (neg, l1) : List Char × List Char :=
    match l with
    | '-' :: r => (['-'], r)
    | _ => ([], l)
  let intDigits := l1.takeWhile Char.isDigit
  let l2 := l1.drop intDigits.length
  if intDigits = [] then none
  else if intDigits.length > 1 ∧ intDigits.head? = some '0' then none
  else
    let (fracPart, l3) : List Char × List Char :=
      match l2 with
      | '.' :: r =>
        let ds := r.takeWhile Char.isDigit
        if ds = [] then ([], l2) else ('.' :: ds, r.drop ds.length)
      | _ => ([], l2)
    if l2 ≠ l3 ∨ l2.head? ≠ some '.' then
      let (expPart, l4) : List Char × List Char :=
        match l3 with
        | e :: r =>
          if e == 'e' || e == 'E' then
            let (sgn, r2) : List Char × List Char :=
              match r with
              | '+' :: rr => (['+'], rr)
              | '-' :: rr => (['-'], rr)
              | _ => ([], r)
            let ds := r2.takeWhile Char.isDigit
            if ds = [] then ([], l3) else (e :: (sgn ++ ds), r2.drop ds.length)
          else ([], l3)
        | [] => ([], l3)
      some (neg ++ intDigits ++ fracPart ++ expPart, l4)
    else none

mutual

/-- One JSON value (fuel-indexed recursive descent). -/
def parseValue : Nat → List Char → Option (Json × List Char)
  | 0, _ => none
  | fuel + 1, input =>
    match skipWs input with
    | [] => none
    | c :: rest =>
      if c == '"' then
        (parseStrChars (rest.length + 1) rest).map (fun p => (Json.str ⟨p.1⟩, p.2))
      else if c == '\x7b' then
        match skipWs rest with
        | '\x7d' :: rr => some (Json.obj [], rr)
        | r => (parseMembers fuel r).map (fun p => (Json.obj p.1, p.2))
      else if c == '[' then
        match skipWs rest with
        | ']' :: rr => some (Json.arr [], rr)
        | r => (parseElems fuel r).map (fun p => (Json.arr p.1, p.2))
      else if c == 'n' then
        match rest with
        | 'u' :: 'l' :: 'l' :: r => some (Json.null, r)
        | _ => none
      else if c == 't' then
        match rest with
        | 'r' :: 'u' :: 'e' :: r => some (Json.bool true, r)
        | _ => none
      else if c == 'f' then
        match rest with
        | 'a' :: 'l' :: 's' :: 'e' :: r => some (Json.bool false, r)
        | _ => none
      else
        (parseNumberLex (c :: rest)).map (fun p => (Json.num ⟨p.1⟩, p.2))

/-- Members of a JSON object, positioned at a key (not at `}`). -/
def parseMembers : Nat → List Char → Option (List (String × Json) × List Char)
  | 0, _ => none
  | fuel + 1, input =>
    match skipWs input with
    | '"' :: r =>
      match parseStrChars (r.length + 1) r with
      | none => none
      | some (keyChars, r2) =>
        match skipWs r2 with
        | ':' :: r3 =>
          match parseValue fuel r3 with
          | none => none
          | some (v, r4) =>
            match skipWs r4 with
            | ',' :: r5 =>
              (parseMembers fuel r5).map
                (fun p => ((String.mk keyChars, v) :: p.1, p.2))
            | '\x7d' :: r5 => some ([(String.mk keyChars, v)], r5)
            | _ => none
        | _ => none
    | _ => none

/-- Elements of a JSON array, positioned at a value (not at `]`). -/
def parseElems : Nat → List Char → Option (List Json × List Char)
  | 0, _ => none
  | fuel + 1, input =>
    match parseValue fuel input with
    | none => none
    | some (v, r) =>
      match skipWs r with
      | ',' :: r2 => (parseElems fuel r2).map (fun p => (v :: p.1, p.2))
      | ']' :: r2 => some ([v], r2)
      | _ => none

end

/-- `JSON.parse(s)`: parse one value and require only whitespace after it;
`none` models a thrown `SyntaxError`. -/
def parseJson (s : String) : Option Json :=
  match parseValue (s.data.length + 1) s.data with
  | some (j, rest) => if skipWs rest = [] then some j else none
  | none => none

/-! ## URL building (src/utils/apiClient.ts, normalizeURLPath / buildURL) -/

/-- A primitive query-parameter value (`string | number | boolean`). -/
inductive JSPrim where
  | str (s : String)
  | int (n : Int)
  | bool (b : Bool)
deriving DecidableEq

/-- JS `String(value)` on a primitive. -/
def jsPrimString : JSPrim → String
  | .str s => s
  | .int n => toString n
  | .bool b => if b then "true" else "false"

/-- The loop over `Object.entries(params)` in `buildURL`: keep the
entries whose value is neither `undefined` nor `null`, stringified. -/
def buildQueryPairs (params : List (String × Option JSPrim)) :
    List (String × String) :=
  params.filterMap (fun p => p.2.map (fun v => (p.1, jsPrimString v)))

/-- JS `a.includes(b)` on strings. -/
def jsIncludes (s sub : String) : Bool :=
  decide (sub.data <:+: s.data)

/-- `options?.timeout || config.timeout`: a per-call override is used only
when truthy (nonzero). -/
def effTimeout (override : Option Nat) (configTimeout : Nat) : Nat :=
  match override with
  | some t => if t ≠ 0 then t else configTimeout
  | none => configTimeout

/-- An HTTP response as observed by `request`: status, the
`content-length` header if present, and the body text (`none` models a
body whose reading rejects). -/
structure Resp where
  status : Int
  contentLength : Option String
  bodyText : Option String

/-- `response.ok`: status in the inclusive range 200–299. -/
def respOk (status : Int) : Bool :=
  200 ≤ status ∧ status ≤ 299

/-- What the network exchange does: resolve with a response, reject with
the abort signal (the timer fired: a `DOMException` named `AbortError`,
which is an `instanceof Error`), or reject with some other platform error
carrying its `name` and whether it is an `instanceof Error`. -/
inductive NetResult where
  | response (r : Resp)
  | abort
  | failure (name : String) (isError : Bool)

/-- A value thrown inside `request`: one of the client's own errors, or a
platform error. -/
inductive Thrown where
  | erp (e : ERPError)
  | raw (name : String) (isError : Bool)

/-- The `name` of a thrown value. -/
def thrownName : Thrown → String
  | .erp e => errName e.kind
  | .raw n _ => n

/-- Whether a thrown value is an `instanceof Error`. -/
def thrownIsError : Thrown → Bool
  | .erp _ => true
  | .raw _ b => b

/-- A successful return of `request`: the empty-success marker `{}` or a
decoded JSON value. -/
inductive SuccessVal where
  | empty
  | value (j : Json)

/-- The outcome `request` delivers to its caller. -/
inductive Outcome where
  | success (v : SuccessVal)
  | threw (t : Thrown)

/-- The error message computed for a non-OK response: start from
`API {method} {endpoint} failed: {status}`, try to take a truthy `message`
or `error` field of the JSON-parsed body; if parsing (or the property
access, for a non-object parse like `null`) throws, append the nonempty
body text to the default message. -/
def errorMessageFor (method endpoint : String) (status : Int) (text : String) :
    Json :=
  let dflt := "API " ++ method ++ " " ++ endpoint ++ " failed: " ++ toString status
  match parseJson text with
  | some (Json.obj fields) =>
    match getField fields "message" with
    | some m =>
      if truthyJ m then m
      else
        match getField fields "error" with
        | some e => if truthyJ e then e else Json.str dflt
        | none => Json.str dflt
    | none =>
      match getField fields "error" with
      | some e => if truthyJ e then e else Json.str dflt
      | none => Json.str dflt
  | some Json.null =>
    -- `JSON.parse` yields `null`; `errorJson.message` throws a TypeError
    -- caught by the same catch block as a parse failure.
    Json.str (if text ≠ "" then dflt ++ " - " ++ text else dflt)
  | some _ =>
    -- a non-object, non-null parse: property access yields `undefined`,
    -- so every `||` falls through to the default message.
    Json.str dflt
  | none =>
    Json.str (if text ≠ "" then dflt ++ " - " ++ text else dflt)

/-- The body of the `try` block of `request` after `fetch` resolved:
classify the response (non-OK, empty, JSON, unparsable JSON). -/
def handleResponse (method endpoint : String) (r : Resp) :
    Except Thrown SuccessVal :=
  if ¬ respOk r.status then
    let text := r.bodyText.getD ""
    .error (.erp (createErrorFromStatus r.status
      (errorMessageFor method endpoint r.status text) text))
  else if r.status = 204 ∨ r.contentLength = some "0" then
    .ok .empty
  else
    match r.bodyText.bind parseJson with
    | some j => .ok (.value j)
    | none => .error (.erp (mkNetworkError "Failed to parse response JSON"))

/-- The `catch` block of `request`: re-throw when the error is an
`instanceof Error` whose name contains `"Error"`; else map an
`instanceof Error` named `AbortError` to the timeout `NetworkError`; else
wrap as `NetworkError("Network request failed")`. -/
def outerCatch (timeout : Nat) (t : Thrown) : Thrown :=
  if thrownIsError t && jsIncludes (thrownName t) "Error" then t
  else if thrownIsError t && thrownName t == "AbortError" then
    .erp (mkNetworkError ("Request timeout after " ++ toString timeout ++ "ms"))
  else
    .erp (mkNetworkError "Network request failed")

/-- The outcome of one `request` call as a function of what the network
exchange did, with `timeout` the effective timeout. -/
def requestOutcome (timeout : Nat) (method endpoint : String)
    (net : NetResult) : Outcome :=
  match net with
  | .response r =>
    match handleResponse method endpoint r with
    | .ok v => .success v
    | .error t => .threw (outerCatch timeout t)
  | .abort => .threw (outerCatch timeout (.raw "AbortError" true))
  | .failure n b => .threw (outerCatch timeout (.raw n b))

/-! ## Small observers used by the theorems -/

/-- The client error delivered by an outcome, if any. -/
def errOf : Outcome → Option ERPError
  | .threw (.erp e) => some e
  | _ => none

/-! ## Helper lemmas -/

theorem jsIncludes_errName (k : ErrKind) : jsIncludes (errName k) "Error" = true := by
  cases k <;> decide

theorem outerCatch_erp (t : Nat) (e : ERPError) : outerCatch t (.erp e) = .erp e := by
  unfold outerCatch
  simp [thrownIsError, thrownName, jsIncludes_errName]

/-- Claim C1: for a request whose timeout timer fires before the exchange
completes, the spec requires a NetworkError "Request timeout after
N ms"; the code instead re-throws the raw abort signal, because the
re-throw guard `error.name.includes("Error")` already matches the name
`AbortError`.  This theorem evaluates the code at the failing input. -/
theorem c1_timeout_abort_rethrown_raw (ms : Nat) (method endpoint : String) :
    requestOutcome ms method endpoint .abort = .threw (.raw "AbortError" true) ∧
    requestOutcome ms method endpoint .abort ≠
      .threw (.erp (mkNetworkError ("Request timeout after " ++ toString ms ++ "ms"))) := by
  have h : requestOutcome ms method endpoint .abort = .threw (.raw "AbortError" true) := by
    unfold requestOutcome outerCatch
    simp [thrownIsError, thrownName]
    decide
  refine ⟨h, ?_⟩
  rw [h]
  intro hc
  simp at hc

/-- Claim C2: `createErrorFromStatus` is total and deterministic; it maps
400 to Validation, 401 to Authentication, 403 to Authorization, 404 to
NotFound, 409 to Conflict, any status at least 500 to Server carrying the
status, and every other status to Generic carrying the status; the kind
depends only on the status. -/
theorem c2_createErrorFromStatus_classification (s : Int) (m m' : Json) (b b' : String) :
    (createErrorFromStatus 400 m b).kind = .validation ∧
    (createErrorFromStatus 401 m b).kind = .authentication ∧
    (createErrorFromStatus 403 m b).kind = .authorization ∧
    (createErrorFromStatus 404 m b).kind = .notFound ∧
    (createErrorFromStatus 409 m b).kind = .conflict ∧
    (s ≥ 500 → (createErrorFromStatus s m b).kind = .server ∧
      (createErrorFromStatus s m b).status = some s) ∧
    (s ≠ 400 → s ≠ 401 → s ≠ 403 → s ≠ 404 → s ≠ 409 → s < 500 →
      (createErrorFromStatus s m b).kind = .generic ∧
      (createErrorFromStatus s m b).status = some s) ∧
    (createErrorFromStatus s m b).kind = (createErrorFromStatus s m' b').kind := by
  refine ⟨by simp [createErrorFromStatus], by simp [createErrorFromStatus],
    by simp [createErrorFromStatus], by simp [createErrorFromStatus],
    by simp [createErrorFromStatus], ?_, ?_, ?_⟩
  · intro hs
    unfold createErrorFromStatus
    split_ifs <;> first | exact ⟨rfl, rfl⟩ | omega
  · intro h1 h2 h3 h4 h5 h6
    unfold createErrorFromStatus
    split_ifs <;> first | exact ⟨rfl, rfl⟩ | omega
  · unfold createErrorFromStatus
    split_ifs <;> rfl

/-- Witness for C2 at statuses 503 (Server) and 418 (Generic). -/
theorem c2_witness :
    ((503 : Int) ≥ 500 ∧
      (createErrorFromStatus 503 (.str "m") "b").kind = .server ∧
      (createErrorFromStatus 503 (.str "m") "b").status = some 503) ∧
    ((createErrorFromStatus 418 (.str "m") "").kind = .generic ∧
      (createErrorFromStatus 418 (.str "m") "").status = some 418) := by
  have h := c2_createErrorFromStatus_classification 503 (.str "m") (.str "x") "b" "y"
  have h2 := c2_createErrorFromStatus_classification 418 (.str "m") (.str "x") "" "y"
  have hs := h.2.2.2.2.2.1 (by norm_num)
  have hg := h2.2.2.2.2.2.2.1 (by norm_num) (by norm_num) (by norm_num)
    (by norm_num) (by norm_num) (by norm_num)
  exact ⟨⟨by norm_num, hs.1, hs.2⟩, hg⟩

/-- Claim C8: every success-range response with status 204 or with
content-length header "0" yields the empty-success marker, for every
method and regardless of the body. -/
theorem c8_empty_success (t : Nat) (method endpoint : String) (r : Resp)
    (hok : respOk r.status = true)
    (h : r.status = 204 ∨ r.contentLength = some "0") :
    requestOutcome t method endpoint (.response r) = .success .empty := by
  have hh : handleResponse method endpoint r = .ok .empty := by
    unfold handleResponse
    rw [if_neg (by simp [hok]), if_pos h]
  simp [requestOutcome, hh]

/-- Witness for C8: a 204 response with an unreadable body. -/
theorem c8_witness :
    respOk 204 = true ∧
    requestOutcome 30000 "DELETE" "/items/1"
      (.response { status := 204, contentLength := none, bodyText := none }) =
      .success .empty :=
  ⟨by decide, c8_empty_success 30000 "DELETE" "/items/1" _ (by decide) (Or.inl rfl)⟩

/-- Claim C7: a success-range response that is not classified as empty and
whose body does not parse as JSON yields a NetworkError
"Failed to parse response JSON" as a completed-error outcome, never a
silently-returned success. -/
theorem c7_unparsable_success_body (t : Nat) (method endpoint : String) (r : Resp)
    (hok : respOk r.status = true)
    (h204 : r.status ≠ 204) (hcl : r.contentLength ≠ some "0")
    (hparse : r.bodyText.bind parseJson = none) :
    requestOutcome t method endpoint (.response r) =
      .threw (.erp (mkNetworkError "Failed to parse response JSON")) := by
  have hh : handleResponse method endpoint r =
      .error (.erp (mkNetworkError "Failed to parse response JSON")) := by
    unfold handleResponse
    rw [if_neg (by simp [hok]), if_neg (by rintro (hx | hx); exacts [h204 hx, hcl hx]),
      hparse]
  simp [requestOutcome, hh, outerCatch_erp]

/-- Witness for C7: status 200 with body "not-json". -/
theorem c7_witness :
    respOk 200 = true ∧
    requestOutcome 30000 "GET" "/items"
      (.response { status := 200, contentLength := none, bodyText := some "not-json" }) =
      .threw (.erp (mkNetworkError "Failed to parse response JSON")) :=
  ⟨by decide, c7_unparsable_success_body 30000 "GET" "/items" _ (by decide)
    (by decide) (by decide) rfl⟩

/-- Claim C10: a defined-but-falsy non-multipart body (0, empty string,
false, null) is sent as no body at all, identically to an omitted body;
exactly the truthy non-multipart bodies are JSON-stringified. -/
theorem c10_falsy_body_not_sent (b : JsBody) :
    (truthyB b = false → sentPayload b = none) ∧
    sentPayload .undef = none ∧
    ((∃ s, sentPayload b = some (.json s)) ↔
      truthyB b = true ∧ isFormDataB b = false) ∧
    (truthyB b = true → isFormDataB b = false →
      sentPayload b = some (.json (jsStringify b))) := by
  refine ⟨fun h => by simp [sentPayload, h], rfl, ?_, fun h1 h2 => by
    simp [sentPayload, h1, h2]⟩
  constructor
  · rintro ⟨s, hs⟩
    unfold sentPayload at hs
    by_cases ht : truthyB b
    · refine ⟨ht, ?_⟩
      rw [if_pos ht] at hs
      by_cases hf : isFormDataB b
      · rw [if_pos hf] at hs
        simp at hs
      · exact Bool.eq_false_iff.mpr hf
    · rw [if_neg ht] at hs
      simp at hs
  · rintro ⟨h1, h2⟩
    exact ⟨jsStringify b, by simp [sentPayload, h1, h2]⟩

/-- Witness for C10: the bodies 0, "", false are sent without payload like
an omitted body; a truthy string body is JSON-stringified. -/
theorem c10_witness :
    sentPayload (.num 0) = none ∧ sentPayload (.str "") = none ∧
    sentPayload (.bool false) = none ∧ sentPayload .undef = none ∧
    sentPayload (.str "x") = some (.json "\"x\"") :=
  ⟨(c10_falsy_body_not_sent (.num 0)).1 (by decide),
   (c10_falsy_body_not_sent (.str "")).1 (by decide),
   (c10_falsy_body_not_sent (.bool false)).1 (by decide),
   (c10_falsy_body_not_sent .undef).2.1,
   (c10_falsy_body_not_sent (.str "x")).2.2.2 (by decide) (by decide)⟩

theorem find?_setMap (l : List (String × String)) (k k' v : String) (h : k ≠ k') :
    (l.map (fun p => if p.1 == k then (k, v) else p)).find? (·.1 == k') =
      l.find? (·.1 == k') := by
  induction l with
  | nil => rfl
  | cons p t ih =>
    simp only [List.map_cons, List.find?_cons]
    by_cases hpk : p.1 = k
    · rw [show (if (p.1 == k) = true then (k, v) else p) = (k, v) from by simp [hpk]]
      rw [show (k == k') = false from by simp [h]]
      rw [show (p.1 == k') = false from by simp [hpk, h]]
      exact ih
    · rw [show (if (p.1 == k) = true then (k, v) else p) = p from by simp [hpk]]
      cases hpk' : (p.1 == k') with
      | true => rfl
      | false => exact ih

theorem find?_append_single (l : List (String × String)) (k k' v : String)
    (h : k ≠ k') :
    ((l ++ [(k, v)]).find? (·.1 == k')) = l.find? (·.1 == k') := by
  induction l with
  | nil =>
    simp only [List.nil_append, List.find?]
    rw [show (k == k') = false from by simp [h]]
  | cons p t ih =>
    simp only [List.cons_append, List.find?_cons]
    cases hpk' : (p.1 == k') <;> simp [ih]

theorem getKV_setKV_ne (l : List (String × String)) (k k' v : String) (h : k ≠ k') :
    getKV (setKV l k v) k' = getKV l k' := by
  unfold setKV getKV
  split_ifs with hf
  · rw [find?_setMap l k k' v h]
  · rw [find?_append_single l k k' v h]

theorem getKV_spread_nokey (b : List (String × String)) (a : List (String × String))
    (k : String) (hb : ∀ p ∈ b, p.1 ≠ k) : getKV (spread a b) k = getKV a k := by
  induction b generalizing a with
  | nil => rfl
  | cons p t ih =>
    have hstep : spread a (p :: t) = spread (setKV a p.1 p.2) t := rfl
    rw [hstep, ih (setKV a p.1 p.2) (fun q hq => hb q (List.mem_cons_of_mem p hq)),
      getKV_setKV_ne a p.1 k p.2 (hb p (List.mem_cons_self p t))]

/-- Counterexample to C4: with a configured default header
`Content-Type: application/json` and a FormData body, the built header set
does contain the JSON Content-Type — the builder only refrains from adding
one, it does not remove one supplied by defaults or overrides. -/
theorem c4_counterexample :
    getKV (buildHeaders [("Content-Type", "application/json")] [] none true)
      "Content-Type" = some "application/json" := rfl

/-- Claim C4 (amended): for a FormData body the builder itself never adds
a JSON Content-Type: whenever neither the default headers nor the per-call
overrides carry a Content-Type key, the resulting header set has no
Content-Type at all. -/
theorem c4_amended (d e : List (String × String)) (tok : Option String)
    (hd : ∀ p ∈ d, p.1 ≠ "Content-Type") (he : ∀ p ∈ e, p.1 ≠ "Content-Type") :
    getKV (buildHeaders d e tok true) "Content-Type" = none := by
  have hbase : getKV (spread (spread [] d) e) "Content-Type" = none := by
    rw [getKV_spread_nokey e (spread [] d) "Content-Type" he,
      getKV_spread_nokey d [] "Content-Type" hd]
    rfl
  unfold buildHeaders
  simp only [Bool.not_true, Bool.false_and, Bool.false_eq_true, if_false]
  cases tok with
  | none => exact hbase
  | some t =>
    by_cases ht : t = ""
    · simp only [ht, ne_eq, not_true_eq_false, if_false]
      exact hbase
    · simp only [ne_eq, ht, not_false_eq_true, if_true]
      rw [getKV_setKV_ne _ "Authorization" "Content-Type" _ (by decide)]
      exact hbase

/-- Witness for C4 (amended): defaults `Accept: text/plain`, no overrides,
a bearer token, FormData body — no Content-Type in the result. -/
theorem c4_amended_witness :
    getKV (buildHeaders [("Accept", "text/plain")] [] (some "tk") true)
      "Content-Type" = none :=
  c4_amended [("Accept", "text/plain")] [] (some "tk")
    (by intro p hp; simp at hp; simp [hp]) (by intro p hp; simp at hp)

/-- Counterexample to C5: a base address with two trailing slashes keeps
one of them — `replace(/\/$/, '')` strips at most one trailing slash, so
the normalized base address can still end in a slash. -/
theorem c5_counterexample :
    (validateConfig { baseURL := "http://a//", defaultHeaders := none,
                      getAccessToken := none, timeout := none }).map
      (fun a => a.baseURL) = .ok "http://a/" ∧
    ("http://a/").data.getLast? = some '/' :=
  ⟨rfl, by decide⟩

/-- Claim C5 (amended): validation fails (with a plain Error) exactly when
the base address is empty; otherwise the result strips exactly one
trailing slash from the base address when one is present (a base ending
in several slashes keeps the rest), takes the supplied default headers or
the empty mapping, the supplied timeout unless it is absent or zero (then
30000), and passes the token-retrieval capability through unchanged. -/
theorem c5_amended (c : ERPServiceConfig) :
    ((validateConfig c).isOk = true ↔ c.baseURL ≠ "") ∧
    (∀ a, validateConfig c = .ok a →
      a.baseURL = stripOneTrailingSlash c.baseURL ∧
      (c.baseURL.data.getLast? ≠ some '/' → a.baseURL = c.baseURL) ∧
      (c.baseURL.data.getLast? = some '/' → a.baseURL = ⟨c.baseURL.data.dropLast⟩) ∧
      a.defaultHeaders = c.defaultHeaders.getD [] ∧
      a.getAccessToken = c.getAccessToken ∧
      ((c.timeout = none ∨ c.timeout = some 0) → a.timeout = 30000) ∧
      (∀ t, c.timeout = some t → t ≠ 0 → a.timeout = t)) := by
  constructor
  · unfold validateConfig
    split_ifs with h <;> simp [h, Except.isOk, Except.toBool]
  · intro a ha
    unfold validateConfig at ha
    split_ifs at ha with h
    cases ha
    refine ⟨rfl, ?_, ?_, rfl, rfl, ?_, ?_⟩
    · intro hno; simp [stripOneTrailingSlash, hno]
    · intro hyes; simp [stripOneTrailingSlash, hyes]
    · rintro (ht | ht) <;> simp [ht]
    · intro t ht htne; simp [ht, htne]

/-- Witness for C5 (amended) at a concrete configuration with one
trailing slash, explicit headers and a zero (falsy) timeout. -/
theorem c5_amended_witness :
    (validateConfig { baseURL := "http://a/", defaultHeaders := some [("X", "1")],
                      getAccessToken := none, timeout := some 0 }).isOk = true ∧
    ({ baseURL := "http://a", defaultHeaders := [("X", "1")],
       getAccessToken := none, timeout := 30000 } : ApiConfig).baseURL =
      stripOneTrailingSlash "http://a/" ∧
    ({ baseURL := "http://a", defaultHeaders := [("X", "1")],
       getAccessToken := none, timeout := 30000 } : ApiConfig).timeout = 30000 := by
  have h := c5_amended { baseURL := "http://a/", defaultHeaders := some [("X", "1")],
                         getAccessToken := none, timeout := some 0 }
  have h2 := h.2 { baseURL := "http://a", defaultHeaders := [("X", "1")],
                   getAccessToken := none, timeout := 30000 } rfl
  exact ⟨h.1.mpr (by decide), h2.1, h2.2.2.2.2.2.1 (Or.inr rfl)⟩

theorem key_unique {α β : Type} {l : List (α × β)} (h : (l.map Prod.fst).Nodup)
    {p q : α × β} (hp : p ∈ l) (hq : q ∈ l) (hk : p.1 = q.1) : p = q := by
  induction l with
  | nil => cases hp
  | cons x t ih =>
    rw [List.map_cons, List.nodup_cons] at h
    rcases List.mem_cons.mp hp with rfl | hp2
    · rcases List.mem_cons.mp hq with rfl | hq2
      · rfl
      · refine absurd ?_ h.1
        rw [hk]
        exact List.mem_map_of_mem Prod.fst hq2
    · rcases List.mem_cons.mp hq with rfl | hq2
      · refine absurd ?_ h.1
        rw [← hk]
        exact List.mem_map_of_mem Prod.fst hp2
      · exact ih h.2 hp2 hq2

theorem map_fst_buildQueryPairs (params : List (String × Option JSPrim)) :
    (buildQueryPairs params).map Prod.fst =
      (params.filter (fun p => p.2.isSome)).map Prod.fst := by
  induction params with
  | nil => rfl
  | cons p t ih =>
    rcases p with ⟨a, ov⟩
    cases ov <;> simp [buildQueryPairs, List.filterMap_cons, List.filter_cons, ih] <;>
      exact ih

/-- Claim C6: in the built query, a key mapped to undefined or null is
omitted entirely, and every key mapped to a present value appears exactly
once, with the stringified value; keys of a JS object are distinct. -/
theorem c6_query_param_omission (params : List (String × Option JSPrim)) (k : String)
    (hnd : (params.map Prod.fst).Nodup) :
    ((k, (none : Option JSPrim)) ∈ params →
      k ∉ (buildQueryPairs params).map Prod.fst) ∧
    (∀ v : JSPrim, (k, some v) ∈ params →
      ((buildQueryPairs params).map Prod.fst).count k = 1 ∧
      (k, jsPrimString v) ∈ buildQueryPairs params) := by
  constructor
  · intro hmem hcontra
    rw [map_fst_buildQueryPairs] at hcontra
    obtain ⟨p, hpf, hpk⟩ := List.mem_map.mp hcontra
    have hpl := List.mem_of_mem_filter hpf
    have hps := (List.mem_filter.mp hpf).2
    have hpq : p = (k, none) := key_unique hnd hpl hmem (by rw [hpk])
    rw [hpq] at hps
    simp at hps
  · intro v hv
    constructor
    · rw [map_fst_buildQueryPairs]
      apply List.count_eq_one_of_mem
      · exact List.Nodup.sublist (List.Sublist.map Prod.fst params.filter_sublist) hnd
      · exact List.mem_map.mpr ⟨(k, some v), List.mem_filter.mpr ⟨hv, rfl⟩, rfl⟩
    · exact List.mem_filterMap.mpr ⟨(k, some v), hv, rfl⟩

/-- Witness for C6: params a=1, b=null — a appears once as "1", b is
omitted. -/
theorem c6_witness :
    ((buildQueryPairs [("a", some (.int 1)), ("b", none)]).map Prod.fst).count "a" = 1 ∧
    ("a", "1") ∈ buildQueryPairs [("a", some (.int 1)), ("b", none)] ∧
    "b" ∉ (buildQueryPairs [("a", some (.int 1)), ("b", none)]).map Prod.fst := by
  have h := c6_query_param_omission [("a", some (.int 1)), ("b", none)] "a" (by decide)
  have h2 := c6_query_param_omission [("a", some (.int 1)), ("b", none)] "b" (by decide)
  have ha := h.2 (.int 1) (by decide)
  exact ⟨ha.1, by simpa using ha.2, h2.1 (by decide)⟩

theorem createErrorFromStatus_message (s : Int) (m : Json) (b : String) :
    (createErrorFromStatus s m b).message = m := by
  unfold createErrorFromStatus
  split_ifs <;> rfl

theorem createErrorFromStatus_status (s : Int) (m : Json) (b : String) :
    (createErrorFromStatus s m b).status = some s := by
  unfold createErrorFromStatus
  split_ifs <;> simp_all

/-- Counterexample to C9: a 404 response whose body is the JSON object
with an empty-string "message" field — the field is present, but because
`errorJson.message || errorJson.error || default` tests truthiness, the
empty string is not carried; the produced error keeps the generic
message. -/
theorem c9_counterexample :
    requestOutcome 30000 "GET" "/items"
      (.response { status := 404, contentLength := none,
                   bodyText := some "\x7b\"message\":\"\"\x7d" }) =
      .threw (.erp { kind := .notFound,
                     message := .str "API GET /items failed: 404",
                     status := some 404,
                     response := some (404, "\x7b\"message\":\"\"\x7d") }) ∧
    "API GET /items failed: 404" ≠ "" :=
  ⟨rfl, by decide⟩

/-- Claim C9 (amended): for every non-success response whose body parses
as a JSON object, the produced error carries a truthy `message` field
value as its message; failing that, a truthy `error` field value; and
when both fields are absent or falsy it falls back to the generic
`API {method} {endpoint} failed: {status}` message.  The error carries
the original status, and a failure to read the body text does not crash
the flow — it behaves exactly as an empty body text. -/
theorem c9_message_extraction (t : Nat) (method endpoint : String) (r : Resp)
    (fields : List (String × Json))
    (hok : respOk r.status = false)
    (hparse : parseJson (r.bodyText.getD "") = some (.obj fields)) :
    (∀ mv, getField fields "message" = some mv → truthyJ mv = true →
      (errOf (requestOutcome t method endpoint (.response r))).map (·.message) =
        some mv) ∧
    (∀ ev, (∀ mv, getField fields "message" = some mv → truthyJ mv = false) →
      getField fields "error" = some ev → truthyJ ev = true →
      (errOf (requestOutcome t method endpoint (.response r))).map (·.message) =
        some ev) ∧
    ((∀ mv, getField fields "message" = some mv → truthyJ mv = false) →
      (∀ ev, getField fields "error" = some ev → truthyJ ev = false) →
      (errOf (requestOutcome t method endpoint (.response r))).map (·.message) =
        some (.str ("API " ++ method ++ " " ++ endpoint ++ " failed: " ++
          toString r.status))) ∧
    (errOf (requestOutcome t method endpoint (.response r))).map (·.status) =
      some (some r.status) ∧
    (∀ t2 m2 e2 st cl, requestOutcome t2 m2 e2 (.response ⟨st, cl, none⟩) =
      requestOutcome t2 m2 e2 (.response ⟨st, cl, some ""⟩)) := by
  have hh : handleResponse method endpoint r =
      .error (.erp (createErrorFromStatus r.status
        (errorMessageFor method endpoint r.status (r.bodyText.getD ""))
        (r.bodyText.getD ""))) := by
    unfold handleResponse
    rw [if_pos (by simp [hok])]
  have herr : errOf (requestOutcome t method endpoint (.response r)) =
      some (createErrorFromStatus r.status
        (errorMessageFor method endpoint r.status (r.bodyText.getD ""))
        (r.bodyText.getD "")) := by
    simp [requestOutcome, hh, outerCatch_erp, errOf]
  refine ⟨?_, ?_, ?_, ?_, ?_⟩
  · intro mv hmv ht
    have hm : errorMessageFor method endpoint r.status (r.bodyText.getD "") = mv := by
      unfold errorMessageFor
      rw [hparse]
      simp [hmv, ht]
    rw [herr]
    simp only [Option.map_some']
    rw [createErrorFromStatus_message, hm]
  · intro ev hmf hev htr
    have hm : errorMessageFor method endpoint r.status (r.bodyText.getD "") = ev := by
      unfold errorMessageFor
      rw [hparse]
      cases hmv : getField fields "message" with
      | none => simp [hmv, hev, htr]
      | some mv => simp [hmv, hmf mv hmv, hev, htr]
    rw [herr]
    simp only [Option.map_some']
    rw [createErrorFromStatus_message, hm]
  · intro hmf hef
    have hm : errorMessageFor method endpoint r.status (r.bodyText.getD "") =
        .str ("API " ++ method ++ " " ++ endpoint ++ " failed: " ++
          toString r.status) := by
      unfold errorMessageFor
      rw [hparse]
      cases hmv : getField fields "message" with
      | none =>
        cases hev : getField fields "error" with
        | none => simp [hmv, hev]
        | some ev => simp [hmv, hev, hef ev hev]
      | some mv =>
        cases hev : getField fields "error" with
        | none => simp [hmv, hmf mv hmv, hev]
        | some ev => simp [hmv, hmf mv hmv, hev, hef ev hev]
    rw [herr]
    simp only [Option.map_some']
    rw [createErrorFromStatus_message, hm]
  · rw [herr]
    simp only [Option.map_some']
    rw [createErrorFromStatus_status]
  · intro t2 m2 e2 st cl
    have hp : parseJson "" = none := rfl
    have hresp : handleResponse m2 e2 ⟨st, cl, none⟩ =
        handleResponse m2 e2 ⟨st, cl, some ""⟩ := by
      unfold handleResponse
      simp [Option.getD, Option.bind, hp]
    simp [requestOutcome, hresp]

/-- Witness for C9 (amended): the spec scenario (404 with body
`{"message":"not found"}` gives NotFound / "not found" / 404), the
`error`-field fallback (`{"error":"boom"}` gives "boom"), and the
falsy-field fallback (`{"message":""}` gives the generic message). -/
theorem c9_witness :
    respOk 404 = false ∧
    (errOf (requestOutcome 30000 "GET" "/items"
      (.response { status := 404, contentLength := none,
                   bodyText := some "\x7b\"message\":\"not found\"\x7d" }))).map
      (·.message) = some (.str "not found") ∧
    (errOf (requestOutcome 30000 "GET" "/items"
      (.response { status := 404, contentLength := none,
                   bodyText := some "\x7b\"message\":\"not found\"\x7d" }))).map
      (·.status) = some (some 404) ∧
    (errOf (requestOutcome 30000 "GET" "/items"
      (.response { status := 404, contentLength := none,
                   bodyText := some "\x7b\"message\":\"not found\"\x7d" }))).map
      (·.kind) = some .notFound ∧
    (errOf (requestOutcome 30000 "GET" "/items"
      (.response { status := 404, contentLength := none,
                   bodyText := some "\x7b\"error\":\"boom\"\x7d" }))).map
      (·.message) = some (.str "boom") ∧
    (errOf (requestOutcome 30000 "GET" "/items"
      (.response { status := 404, contentLength := none,
                   bodyText := some "\x7b\"message\":\"\"\x7d" }))).map
      (·.message) = some (.str "API GET /items failed: 404") := by
  have hA := c9_message_extraction 30000 "GET" "/items"
    { status := 404, contentLength := none,
      bodyText := some "\x7b\"message\":\"not found\"\x7d" }
    [("message", .str "not found")] rfl rfl
  have hB := c9_message_extraction 30000 "GET" "/items"
    { status := 404, contentLength := none,
      bodyText := some "\x7b\"error\":\"boom\"\x7d" }
    [("error", .str "boom")] rfl rfl
  have hC := c9_message_extraction 30000 "GET" "/items"
    { status := 404, contentLength := none,
      bodyText := some "\x7b\"message\":\"\"\x7d" }
    [("message", .str "")] rfl rfl
  refine ⟨rfl, hA.1 (.str "not found") rfl rfl, hA.2.2.2.1, rfl, ?_, ?_⟩
  · refine hB.2.1 (.str "boom") ?_ rfl rfl
    intro mv hmv
    rw [show getField [("error", Json.str "boom")] "message" = none from rfl] at hmv
    exact Option.noConfusion hmv
  · refine hC.2.2.1 ?_ ?_
    · intro mv hmv
      rw [show getField [("message", Json.str "")] "message" = some (Json.str "")
        from rfl] at hmv
      cases hmv
      rfl
    · intro ev hev
      rw [show getField [("message", Json.str "")] "error" = none from rfl] at hev
      exact Option.noConfusion hev

theorem getLast?_ne_of_not_mem {l : List Char} {c : Char} (h : c ∉ l) :
    l.getLast? ≠ some c := by
  intro hg
  obtain ⟨hne, heq⟩ := List.mem_getLast?_eq_getLast (Option.mem_def.mpr hg)
  exact h (heq ▸ List.getLast_mem hne)

